import Mathlib

/-!
Verification development for `sync_services.py`: a pipeline that discovers
service identifiers from an event stream, resolves owning teams through a
reference table, fills gaps with placeholder teams, and upserts service
catalog definitions.  Each Python function relevant to the verified claims
is shallowly embedded as an executable Lean definition; network responses
are modelled as explicit data passed to the embedded functions.
-/

namespace SyncServices

/-! ## String ordering

Python compares strings lexicographically by code point; we model that as
the lexicographic order on the underlying character lists (which coincides
with `String`'s order but, unlike `String.ltb`, evaluates by `decide`). -/

/-- Python string `<=`: lexicographic on code points. -/
def strLe (a b : String) : Prop := a.data ≤ b.data

instance : DecidableRel strLe :=
  fun a b => inferInstanceAs (Decidable (a.data ≤ b.data))

instance : IsTotal String strLe := ⟨fun a b => le_total a.data b.data⟩

instance : IsTrans String strLe := ⟨fun _ _ _ h1 h2 => le_trans h1 h2⟩

instance : IsAntisymm String strLe := ⟨fun _ _ h1 h2 => String.ext (le_antisymm h1 h2)⟩

/-- Python `sorted` of a collection of strings (a stable sort; on the
deduplicated inputs used below stability is irrelevant). -/
def pySorted (l : List String) : List String := List.insertionSort strLe l

/-! ## Service Extractor (`list_services_from_events`, per-record body) -/

/-- One raw event record, reduced to the fields the extractor reads:
`attributes.attributes.service` (a missing field is `none`; Python
truthiness makes `""` equivalent to missing) and `attributes.tags`. -/
structure EventRecord where
  service : Option String
  tags : List String
deriving DecidableEq

/-- Python `t.startswith(pre)`: `pre`'s characters are a prefix of `t`'s. -/
def pyStartsWith (t pre : String) : Bool := pre.data.isPrefixOf t.data

/-- Tag fallback: every tag starting with `"service:"` contributes its suffix
(`tag.split("service:", 1)[1]`, which for a tag with that prefix is the text
after the first 8 characters). -/
def tagServices (tags : List String) : List String :=
  (tags.filter (fun t => pyStartsWith t "service:")).map (fun t => t.drop 8)

/-- Per-record extraction from the loop body of `list_services_from_events`:
a truthy nested `service` field is taken verbatim and the record is done
(`continue`); otherwise the tags are scanned. -/
def extract_services (r : EventRecord) : List String :=
  match r.service with
  | some svc => if svc ≠ "" then [svc] else tagServices r.tags
  | none => tagServices r.tags

/-! ## Gap Filler (`assign_dummy_teams`) -/

/-- The fixed placeholder rotation `teams = ["team 1", "team 2"]`. -/
def dummyTeams : List String := ["team 1", "team 2"]

/-- `sorted(set(s for s in services if s))`: drop falsy identifiers,
deduplicate, sort. -/
def sortedServiceSet (services : List String) : List String :=
  pySorted (services.filter (fun s => s ≠ "")).dedup

/-- `assign_dummy_teams`: enumerate the sorted deduplicated identifiers and
assign `teams[idx % len(teams)]` to each. -/
def assign_dummy_teams (services : List String) : List (String × String) :=
  (sortedServiceSet services).enum.map
    (fun p => (p.2, dummyTeams.getD (p.1 % dummyTeams.length) ""))

/-! ## Mapping Resolver (`get_reference_table_rows_by_id`) -/

/-- Python `str.strip()`: drop leading and trailing whitespace (modelled on
the character list so that it evaluates). -/
def pyStrip (s : String) : String :=
  ⟨((s.data.dropWhile Char.isWhitespace).reverse.dropWhile Char.isWhitespace).reverse⟩

/-- A value bag: a JSON object with string values, as an association list. -/
abbrev Bag : Type := List (String × String)

/-- Python `bag.get(k)` on a dict with unique keys. -/
def bagGet (bag : Bag) (k : String) : Option String :=
  (List.find? (fun p => p.1 = k) bag).map (fun p => p.2)

/-- One element of the rows response `data` array, reduced to its
`attributes` object: the value bag may live under `values`, `value` or
`columns` (a missing or empty one falls through), and otherwise the
attributes object itself serves as the bag. -/
structure RowItem where
  values : Option Bag
  value : Option Bag
  columns : Option Bag
  attrs : Bag
deriving DecidableEq

/-- Python `o or fb` for an optional bag: `None` and the empty dict are
falsy. -/
def orBag (o : Option Bag) (fb : Bag) : Bag :=
  match o with
  | some v => if List.isEmpty v then fb else v
  | none => fb

/-- `_extract_row_values`:
`attrs.get("values") or attrs.get("value") or attrs.get("columns") or attrs`. -/
def extract_row_values (it : RowItem) : Bag :=
  orBag it.values (orBag it.value (orBag it.columns it.attrs))

/-- An in-memory mapping (Python dict) from service to team. -/
abbrev Mapping : Type := String → Option String

/-- The empty dict. -/
def emptyMapping : Mapping := fun _ => none

/-- `mapping[k] = v`: overwrite any prior value for `k`. -/
def mUpdate (m : Mapping) (k v : String) : Mapping :=
  fun x => if x = k then some v else m x

/-- The per-item body of the resolver loop: pull the service and team
columns out of the extracted value bag and, when the service value is
non-empty after stripping, record `mapping[service] = team`. -/
def applyItem (service_col team_col : String) (m : Mapping) (it : RowItem) : Mapping :=
  let values := extract_row_values it
  let service := pyStrip ((bagGet values service_col).getD "")
  let team := pyStrip ((bagGet values team_col).getD "")
  if service ≠ "" then mUpdate m service team else m

/-- `row_list[start : start + n]` slices for `start in range(0, len(row_list), n)`. -/
def chunkList (n : Nat) (l : List α) : List (List α) :=
  if l.isEmpty then []
  else if n = 0 then [l]
  else l.take n :: chunkList n (l.drop n)
termination_by l.length
decreasing_by
  rename_i h1 h2
  have hl : l ≠ [] := by simpa [List.isEmpty_iff] using h1
  have : 0 < l.length := List.length_pos.mpr hl
  simp only [List.length_drop]
  omega

/-- The response to one batch rows request, reduced to what the handler
reads: HTTP status, whether the body parses as JSON, whether the parsed
body carries a non-null `meta.not_found`, and the `data` array. -/
structure RowsResponse where
  status : Nat
  jsonParses : Bool
  metaNotFound : Bool
  data : List RowItem

/-- Outcome of the status handling for one chunk. -/
inductive ChunkOutcome where
  | abort (msg : String)
  | skip
  | ok (items : List RowItem)
deriving DecidableEq

/-- Status handling of `get_reference_table_rows_by_id` for one chunk:
401 aborts; 404 with a `meta.not_found` marker skips the chunk, 404 without
one aborts; any other status `>= 400` aborts; otherwise the `data` items are
processed (an unparseable success body raises, i.e. aborts). -/
def handleRowsResponse (r : RowsResponse) : ChunkOutcome :=
  if r.status = 401 then .abort "Unauthorized (401) reading reference table rows."
  else if r.status = 404 then
    if r.jsonParses && r.metaNotFound then .skip
    else .abort "Rows endpoint not found. Verify rows URL/path."
  else if 400 ≤ r.status then
    .abort ("Reference table rows request failed: " ++ toString r.status)
  else if r.jsonParses then .ok r.data
  else .abort "response body is not JSON"

/-- One iteration of the chunk loop: handle the response for this chunk and
fold its items into the mapping (a skipped chunk contributes nothing). -/
def chunkStep (respond : List String → RowsResponse) (service_col team_col : String)
    (m : Mapping) (chunk : List String) : Except String Mapping :=
  match handleRowsResponse (respond chunk) with
  | .abort msg => .error msg
  | .skip => .ok m
  | .ok items => .ok (items.foldl (applyItem service_col team_col) m)

/-- `get_reference_table_rows_by_id`: drop falsy ids, slice into chunks of
100, then one batch request per chunk; `.error` models `SystemExit`. -/
def get_reference_table_rows_by_id (respond : List String → RowsResponse)
    (row_ids : List String) (service_col team_col : String) : Except String Mapping :=
  let row_list := row_ids.filter (fun r => r ≠ "")
  (chunkList 100 row_list).foldlM (chunkStep respond service_col team_col) emptyMapping

/-- A well-behaved source holding one row per identifier: every batch
request succeeds and returns exactly the rows of the requested ids that
exist. -/
def storeRespond (store : String → Option RowItem) (chunk : List String) : RowsResponse :=
  { status := 200, jsonParses := true, metaNotFound := false, data := chunk.filterMap store }

/-- The resolver's result recomputed without any chunking: all ids in one
pass. -/
def resolveUnchunked (store : String → Option RowItem) (row_ids : List String)
    (service_col team_col : String) : Mapping :=
  ((row_ids.filter (fun r => r ≠ "")).filterMap store).foldl
    (applyItem service_col team_col) emptyMapping

/-! ## Row creation (`create_reference_table_rows`) -/

/-- `resp.status_code in (200, 201)` for the create-row POST of one service. -/
def isCreated (status : String → Nat) (p : String × String) : Bool :=
  status p.1 = 200 || status p.1 = 201

/-- `resp.status_code == 409` for the create-row POST of one service. -/
def isConflict (status : String → Nat) (p : String × String) : Bool :=
  status p.1 = 409

/-- `create_reference_table_rows`, with the POST outcome per service given
by `status`: 200/201 count as created, 409 (conflict) is silently passed
over, anything else appends a diagnostic to the failures list. -/
def create_reference_table_rows (status : String → Nat)
    (rows : List (String × String)) : Nat × List String :=
  rows.foldl (fun acc p =>
    if isCreated status p then (acc.1 + 1, acc.2)
    else if isConflict status p then acc
    else (acc.1, acc.2 ++ [p.1 ++ ": " ++ toString (status p.1)])) (0, [])

/-! ## Catalog Upserter and Run Coordinator (`upsert_service_definition`, `main`) -/

/-- `upsert_service_definition`, with the POST status abstracted: 200/201
succeed with `"created_or_updated"`, anything else fails with the status
as diagnostic. -/
def upsert_service_definition (status : Nat) : Bool × String :=
  if status = 200 || status = 201 then (true, "created_or_updated")
  else (false, toString status)

/-- A mutating network call issued by the pipeline tail. -/
inductive NetCall where
  | createRow (service team : String)
  | upsert (service team : String)
deriving DecidableEq

/-- The printed run summary. -/
structure Summary where
  found : Nat
  updated : Nat
  skipped : Nat
  failures : Nat
  missing_team : List String
deriving DecidableEq

/-- The classification of one service by the upsert loop. -/
inductive Outcome where
  | updated
  | skipped
  | failed
deriving DecidableEq

/-- `(mapping.get(service) or "").strip()`. -/
def serviceTeam (m : Mapping) (service : String) : String :=
  pyStrip ((m service).getD "")

/-- How the upsert loop classifies one service: no team after stripping is
skipped; otherwise dry-run (or a successful upsert) counts as updated and a
failed upsert as failed. -/
def serviceOutcome (m : Mapping) (upsertOk : String → Bool) (dryRun : Bool)
    (service : String) : Outcome :=
  if serviceTeam m service = "" then .skipped
  else if dryRun then .updated
  else if upsertOk service then .updated else .failed

/-- Accumulator of the per-service upsert loop in `main`, plus the trace of
upsert calls it issues. -/
structure LoopState where
  updated : Nat
  skipped : Nat
  failures : Nat
  missing_team : List String
  calls : List NetCall
deriving DecidableEq

/-- One iteration of the upsert loop of `main`. -/
def upsertStep (m : Mapping) (upsertOk : String → Bool) (dryRun : Bool)
    (st : LoopState) (service : String) : LoopState :=
  let team := serviceTeam m service
  if team = "" then
    { st with skipped := st.skipped + 1, missing_team := st.missing_team ++ [service] }
  else if dryRun then
    { st with updated := st.updated + 1 }
  else if upsertOk service then
    { st with updated := st.updated + 1, calls := st.calls ++ [.upsert service team] }
  else
    { st with failures := st.failures + 1, calls := st.calls ++ [.upsert service team] }

/-- The `for service in sorted(services)` loop of `main`. -/
def upsertLoop (m : Mapping) (upsertOk : String → Bool) (dryRun : Bool)
    (services : List String) : LoopState :=
  services.foldl (upsertStep m upsertOk dryRun) ⟨0, 0, 0, [], []⟩

/-- `sorted(services)` for the discovered service set (modelled as a list
whose set of elements is the set). -/
def sortedServices (services : List String) : List String := pySorted services.dedup

/-- `[s for s in services if s not in mapping]`. -/
def missingServices (services : List String) (resolved : Mapping) : List String :=
  (sortedServices services).filter (fun s => (resolved s).isNone)

/-- `mapping.update(rows)`: keys of `rows` override the prior mapping. -/
def updateMapping (m : Mapping) (rows : List (String × String)) : Mapping :=
  fun k =>
    match List.find? (fun p => p.1 = k) rows with
    | some p => some p.2
    | none => m k

/-- The in-memory mapping after the gap-filling step of `main`: placeholder
teams for the services absent from the resolved mapping, merged over it. -/
def fillMapping (services : List String) (resolved : Mapping) : Mapping :=
  updateMapping resolved (assign_dummy_teams (missingServices services resolved))

/-- The pipeline tail of `main`, from the resolved mapping to the printed
summary: compute the services missing a mapping row, gap-fill them with
placeholder teams, persist the placeholder rows unless dry-run, then run the
per-service upsert loop over the sorted service set (each upsert suppressed
and optimistically counted when dry-run).  Returns the summary and the trace
of mutating network calls. -/
def runPipeline (services : List String) (resolved : Mapping)
    (upsertOk : String → Bool) (dryRun : Bool) : Summary × List NetCall :=
  let dummy_rows := assign_dummy_teams (missingServices services resolved)
  let createCalls : List NetCall :=
    if dryRun then [] else dummy_rows.map (fun p => .createRow p.1 p.2)
  let mapping := fillMapping services resolved
  let st := upsertLoop mapping upsertOk dryRun (sortedServices services)
  ({ found := (sortedServices services).length, updated := st.updated,
     skipped := st.skipped, failures := st.failures,
     missing_team := st.missing_team },
   createCalls ++ st.calls)

/-! ## Paginated Fetcher (`list_services_from_events`, paging loop) -/

/-- The `meta.page` object of an events response. -/
structure PageObj where
  after : Option String
deriving DecidableEq

/-- The `meta` object of an events response. -/
structure EventsMeta where
  page : Option PageObj
deriving DecidableEq

/-- One parsed events response body: the `data` records and the paging
metadata; a `none` at either level models a missing object and also paging
metadata that fails to parse (the `.get(..., {})` defaults make these
indistinguishable to the loop). -/
structure EventsResponse where
  data : List EventRecord
  meta : Option EventsMeta
deriving DecidableEq

/-- `data.get("meta", {}).get("page", {}).get("after")`. -/
def metaAfter (r : EventsResponse) : Option String :=
  match r.meta with
  | none => none
  | some m =>
    match m.page with
    | none => none
    | some p => p.after

/-- Python truthiness of the cursor variable: `None` and `""` are falsy. -/
def truthy (c : Option String) : Bool :=
  match c with
  | none => false
  | some s => s != ""

/-- `max_pages is not None and page > max_pages`. -/
def reachedMax (max_pages : Option Nat) (page : Nat) : Bool :=
  match max_pages with
  | some m => page > m
  | none => false

/-- The paging loop of `list_services_from_events`, with the transport
modelled as the sequence of parsed response bodies (`pages k` answers the
`k`-th request, counting from 0) and an explicit fuel bound: `none` means
the fuel ran out before the loop ended (the Python loop has no such bound,
so exhausting every fuel models divergence).  Accumulates the extracted
services and the trace of cursors sent, one entry per request issued,
`none` when `page.cursor` was omitted from the request body. -/
def fetchFrom (pages : Nat → EventsResponse) (max_pages : Option Nat) :
    Nat → Nat → Option String → List String → List (Option String) →
    Option (List String × List (Option String))
  | 0, _, _, _, _ => none
  | fuel + 1, i, cursor, acc, reqs =>
    if reachedMax max_pages (i + 1) then some (acc, reqs)
    else
      let sent := if truthy cursor then cursor else none
      let resp := pages i
      let acc2 := acc ++ (resp.data.map extract_services).flatten
      let cursor2 := metaAfter resp
      if truthy cursor2 then
        fetchFrom pages max_pages fuel (i + 1) cursor2 acc2 (reqs ++ [sent])
      else some (acc2, reqs ++ [sent])

/-- `list_services_from_events` as driven by its paging loop: start on page
1 with no cursor and nothing accumulated. -/
def list_services_from_events (pages : Nat → EventsResponse)
    (max_pages : Option Nat) (fuel : Nat) :
    Option (List String × List (Option String)) :=
  fetchFrom pages max_pages fuel 0 none [] []

/-- The loop terminates: some finite fuel completes it. -/
def fetchTerminates (pages : Nat → EventsResponse) (max_pages : Option Nat) : Prop :=
  ∃ fuel, (list_services_from_events pages max_pages fuel).isSome

/-- A source that always hands back another non-empty cursor. -/
def cursorForeverPages : Nat → EventsResponse :=
  fun _ => { data := [], meta := some { page := some { after := some "c" } } }

/-! ## Theorems -/

/-- The sorted deduplicated identifier list is a function of the input's set
of non-empty identifiers. -/
theorem sortedServiceSet_eq_of_toFinset_eq (l1 l2 : List String)
    (h : l1.toFinset = l2.toFinset) : sortedServiceSet l1 = sortedServiceSet l2 := by
  have hperm : List.Perm (l1.filter (fun s => s ≠ "")).dedup
      (l2.filter (fun s => s ≠ "")).dedup := by
    apply List.perm_of_nodup_nodup_toFinset_eq (List.nodup_dedup _) (List.nodup_dedup _)
    have hmem := fun a => Finset.ext_iff.mp h a
    simp only [List.mem_toFinset] at hmem
    ext a
    simp [List.mem_dedup, List.mem_filter, hmem]
  unfold sortedServiceSet pySorted
  exact List.eq_of_perm_of_sorted
    (((List.perm_insertionSort _ _).trans hperm).trans (List.perm_insertionSort _ _).symm)
    (List.sorted_insertionSort _ _) (List.sorted_insertionSort _ _)

/-- C1: per-record extraction is first-match-wins: a non-empty nested
structured service field yields exactly that value with tags never
consulted; otherwise every tag with prefix `service:` contributes its
suffix. -/
theorem extraction_first_match_wins (svc : String) (hs : svc ≠ "")
    (tags tags2 : List String) (osvc : Option String)
    (ho : osvc = none ∨ osvc = some "") :
    extract_services ⟨some svc, tags⟩ = [svc] ∧
    extract_services ⟨osvc, tags2⟩ = tagServices tags2 ∧
    ∀ name, name ∈ tagServices tags2 ↔
      ∃ t ∈ tags2, pyStartsWith t "service:" = true ∧ name = t.drop 8 := by
  refine ⟨by simp [extract_services, hs], ?_, ?_⟩
  · rcases ho with ho | ho <;> simp [extract_services, ho]
  · intro name
    simp only [tagServices, List.mem_map, List.mem_filter]
    constructor
    · rintro ⟨t, ⟨ht, hp⟩, rfl⟩
      exact ⟨t, ht, hp, rfl⟩
    · rintro ⟨t, ht, hp, rfl⟩
      exact ⟨t, ⟨ht, hp⟩, rfl⟩

/-- Witness for C1 at a concrete record carrying both a structured field and
matching tags. -/
theorem extraction_first_match_wins_witness :
    ("web" : String) ≠ "" ∧
    (extract_services ⟨some "web", ["service:db", "env:prod"]⟩ = ["web"] ∧
    extract_services ⟨none, ["service:db", "env:prod"]⟩ =
      tagServices ["service:db", "env:prod"] ∧
    ∀ name, name ∈ tagServices ["service:db", "env:prod"] ↔
      ∃ t ∈ (["service:db", "env:prod"] : List String),
        pyStartsWith t "service:" = true ∧ name = t.drop 8) :=
  ⟨by decide, extraction_first_match_wins "web" (by decide)
    ["service:db", "env:prod"] ["service:db", "env:prod"] none (Or.inl rfl)⟩

/-- C2: the Gap Filler deduplicates and sorts its input, assigns
`["team 1", "team 2"]` round-robin by sorted position, and is a pure
function of the input's identifier set. -/
theorem gap_filler_deterministic_round_robin (l1 l2 : List String)
    (h : l1.toFinset = l2.toFinset) :
    assign_dummy_teams l1 = assign_dummy_teams l2 ∧
    assign_dummy_teams l1 = (sortedServiceSet l1).enum.map
      (fun p => (p.2, if p.1 % 2 = 0 then "team 1" else "team 2")) := by
  constructor
  · unfold assign_dummy_teams
    rw [sortedServiceSet_eq_of_toFinset_eq l1 l2 h]
  · unfold assign_dummy_teams
    apply List.map_congr_left
    intro p _
    rcases Nat.mod_two_eq_zero_or_one p.1 with hp | hp <;>
      simp [dummyTeams, hp]

/-- Witness for C2 on two orderings of the same identifier set. -/
theorem gap_filler_deterministic_round_robin_witness :
    (["b", "a", "a"] : List String).toFinset = (["a", "b"] : List String).toFinset ∧
    (assign_dummy_teams ["b", "a", "a"] = assign_dummy_teams ["a", "b"] ∧
    assign_dummy_teams ["b", "a", "a"] = (sortedServiceSet ["b", "a", "a"]).enum.map
      (fun p => (p.2, if p.1 % 2 = 0 then "team 1" else "team 2"))) :=
  ⟨by decide, gap_filler_deterministic_round_robin _ _ (by decide)⟩

/-- Unfolding: a non-empty list with positive chunk size yields the first
slice followed by the chunks of the rest. -/
theorem chunkList_cons (n : Nat) (hn : n ≠ 0) (l : List α) (hl : l.isEmpty = false) :
    chunkList n l = l.take n :: chunkList n (l.drop n) := by
  rw [chunkList]
  simp [hl, hn]

/-- Concatenating the chunks restores the original list. -/
theorem chunkList_flatten (n : Nat) (l : List α) : (chunkList n l).flatten = l := by
  by_cases hl : l.isEmpty
  · rw [chunkList]
    simp_all [List.isEmpty_iff]
  · by_cases hn : n = 0
    · rw [chunkList]
      simp [hl, hn]
    · rw [chunkList_cons n hn l (by simpa using hl)]
      simp only [List.flatten_cons]
      rw [chunkList_flatten n (l.drop n)]
      exact List.take_append_drop n l
termination_by l.length
decreasing_by
  have h1 : l ≠ [] := by simpa [List.isEmpty_iff] using hl
  have : 0 < l.length := List.length_pos.mpr h1
  simp only [List.length_drop]
  omega

/-- Folding the chunk loop over a well-behaved source processes exactly the
concatenation of the per-chunk rows. -/
theorem foldlM_chunkStep_storeRespond (store : String → Option RowItem)
    (sc tc : String) (cs : List (List String)) (m : Mapping) :
    cs.foldlM (chunkStep (storeRespond store) sc tc) m =
      .ok ((cs.flatten.filterMap store).foldl (applyItem sc tc) m) := by
  induction cs generalizing m with
  | nil => rfl
  | cons c cs ih =>
    have hstep : chunkStep (storeRespond store) sc tc m c =
        .ok ((c.filterMap store).foldl (applyItem sc tc) m) := by
      simp [chunkStep, handleRowsResponse, storeRespond]
    simp only [List.foldlM_cons, hstep]
    rw [show ((Except.ok ((c.filterMap store).foldl (applyItem sc tc) m) :
        Except String Mapping) >>= fun b =>
        cs.foldlM (chunkStep (storeRespond store) sc tc) b) =
        cs.foldlM (chunkStep (storeRespond store) sc tc)
          ((c.filterMap store).foldl (applyItem sc tc) m) from rfl]
    rw [ih]
    simp [List.filterMap_append, List.foldl_append]

/-- A nonzero-length list is not `isEmpty`. -/
theorem isEmpty_false_of_length_ne_zero (l : List α) (h : l.length ≠ 0) :
    l.isEmpty = false := by
  cases l with
  | nil => simp at h
  | cons a as => rfl

/-- C3: the resolver slices the (non-falsy) identifier list into consecutive
chunks of 100 with one batch lookup per chunk — 250 identifiers give exactly
3 lookups of sizes 100, 100, 50 — and against a well-behaved source the
merged result equals the single-pass result for any chunk size. -/
theorem resolver_chunking_correct (store : String → Option RowItem)
    (service_col team_col : String) (row_ids : List String)
    (h250 : (row_ids.filter (fun r => r ≠ "")).length = 250) :
    (chunkList 100 (row_ids.filter (fun r => r ≠ ""))).map List.length =
      [100, 100, 50] ∧
    get_reference_table_rows_by_id (storeRespond store) row_ids service_col team_col =
      .ok (resolveUnchunked store row_ids service_col team_col) ∧
    ∀ n, (chunkList n (row_ids.filter (fun r => r ≠ ""))).foldlM
        (chunkStep (storeRespond store) service_col team_col) emptyMapping =
      .ok (resolveUnchunked store row_ids service_col team_col) := by
  refine ⟨?_, ?_, ?_⟩
  · set l := row_ids.filter (fun r => r ≠ "") with hldef
    have h1 : chunkList 100 l = l.take 100 :: chunkList 100 (l.drop 100) :=
      chunkList_cons 100 (by norm_num) l
        (isEmpty_false_of_length_ne_zero l (by omega))
    have hd1 : (l.drop 100).length = 150 := by
      simp only [List.length_drop]
      omega
    have h2 : chunkList 100 (l.drop 100) =
        (l.drop 100).take 100 :: chunkList 100 ((l.drop 100).drop 100) :=
      chunkList_cons 100 (by norm_num) _
        (isEmpty_false_of_length_ne_zero _ (by omega))
    have hd2 : ((l.drop 100).drop 100).length = 50 := by
      simp only [List.length_drop]
      omega
    have h3 : chunkList 100 ((l.drop 100).drop 100) =
        ((l.drop 100).drop 100).take 100 ::
          chunkList 100 (((l.drop 100).drop 100).drop 100) :=
      chunkList_cons 100 (by norm_num) _
        (isEmpty_false_of_length_ne_zero _ (by omega))
    have hd3 : (((l.drop 100).drop 100).drop 100).length = 0 := by
      simp only [List.length_drop]
      omega
    have h4 : chunkList 100 (((l.drop 100).drop 100).drop 100) = [] := by
      rw [List.length_eq_zero.mp hd3, chunkList]
      simp
    rw [h1, h2, h3, h4]
    simp only [List.map_cons, List.map_nil, List.length_take, h250, hd1, hd2]
    norm_num
  · unfold get_reference_table_rows_by_id
    rw [foldlM_chunkStep_storeRespond, chunkList_flatten]
    rfl
  · intro n
    rw [foldlM_chunkStep_storeRespond, chunkList_flatten]
    rfl

set_option maxRecDepth 40000 in
/-- Witness for C3 on 250 concrete identifiers. -/
theorem resolver_chunking_correct_witness :
    ((List.replicate 250 "s").filter (fun r => r ≠ "")).length = 250 ∧
    ((chunkList 100 ((List.replicate 250 "s").filter (fun r => r ≠ ""))).map
        List.length = [100, 100, 50] ∧
    get_reference_table_rows_by_id (storeRespond (fun _ => none))
        (List.replicate 250 "s") "service" "team" =
      .ok (resolveUnchunked (fun _ => none) (List.replicate 250 "s") "service" "team") ∧
    ∀ n, (chunkList n ((List.replicate 250 "s").filter (fun r => r ≠ ""))).foldlM
        (chunkStep (storeRespond (fun _ => none)) "service" "team") emptyMapping =
      .ok (resolveUnchunked (fun _ => none) (List.replicate 250 "s") "service" "team")) :=
  ⟨by decide, resolver_chunking_correct (fun _ => none) "service" "team"
    (List.replicate 250 "s") (by decide)⟩

/-- C4: among non-success responses, exactly a 404 carrying a parsed
`meta.not_found` marker is a soft miss: it skips the chunk, contributing no
entries and leaving the loop to continue; every other non-success response
turns the resolve into an abort. -/
theorem not_found_chunk_soft_miss (r : RowsResponse)
    (respond : List String → RowsResponse) (service_col team_col : String) :
    (handleRowsResponse r = .skip ↔
      r.status = 404 ∧ r.jsonParses = true ∧ r.metaNotFound = true) ∧
    (400 ≤ r.status → handleRowsResponse r ≠ .skip →
      ∃ msg, handleRowsResponse r = .abort msg) ∧
    (∀ m chunk, handleRowsResponse (respond chunk) = .skip →
      chunkStep respond service_col team_col m chunk = .ok m) ∧
    (∀ m chunk msg, handleRowsResponse (respond chunk) = .abort msg →
      chunkStep respond service_col team_col m chunk = .error msg) := by
  refine ⟨?_, ?_, ?_, ?_⟩
  · unfold handleRowsResponse
    split_ifs with h1 h2 h3 h4 h5 <;> simp_all
  · intro hge hskip
    unfold handleRowsResponse at hskip ⊢
    split_ifs at hskip ⊢ <;> simp_all
  · intro m chunk hskip
    unfold chunkStep
    rw [hskip]
  · intro m chunk msg habort
    unfold chunkStep
    rw [habort]

/-- Witness for C4: a marked 404 skips its chunk; a 500 aborts. -/
theorem not_found_chunk_soft_miss_witness :
    (handleRowsResponse ⟨404, true, true, []⟩ = .skip ↔
      (404 : Nat) = 404 ∧ true = true ∧ true = true) ∧
    ((400 : Nat) ≤ 404 ∧
      chunkStep (fun _ => ⟨404, true, true, []⟩) "service" "team"
        emptyMapping ["a"] = .ok emptyMapping) ∧
    chunkStep (fun _ => ⟨500, true, false, []⟩) "service" "team"
        emptyMapping ["a"] =
      .error ("Reference table rows request failed: " ++ toString 500) :=
  ⟨(not_found_chunk_soft_miss ⟨404, true, true, []⟩
      (fun _ => ⟨404, true, true, []⟩) "service" "team").1,
   ⟨by norm_num,
    (not_found_chunk_soft_miss ⟨404, true, true, []⟩
      (fun _ => ⟨404, true, true, []⟩) "service" "team").2.2.1
      emptyMapping ["a"] rfl⟩,
   (not_found_chunk_soft_miss ⟨500, true, false, []⟩
      (fun _ => ⟨500, true, false, []⟩) "service" "team").2.2.2
      emptyMapping ["a"] _ rfl⟩

/-- Closed form of the creation loop from an arbitrary accumulator. -/
theorem create_rows_foldl (status : String → Nat) (rows : List (String × String))
    (acc : Nat × List String) :
    rows.foldl (fun acc p =>
      if isCreated status p then (acc.1 + 1, acc.2)
      else if isConflict status p then acc
      else (acc.1, acc.2 ++ [p.1 ++ ": " ++ toString (status p.1)])) acc =
    (acc.1 + rows.countP (isCreated status),
     acc.2 ++ (rows.filter
        (fun p => !(isCreated status p || isConflict status p))).map
       (fun p => p.1 ++ ": " ++ toString (status p.1))) := by
  induction rows generalizing acc with
  | nil => simp
  | cons p ps ih =>
    rw [List.foldl_cons, ih]
    cases hc : isCreated status p <;> cases hk : isConflict status p <;>
      simp [hc, hk, List.countP_cons, List.filter_cons] <;> omega

/-- C5: a conflicting create is success-equivalent: the failures list holds
exactly the services whose status is neither created (200/201) nor conflict
(409), the created count tallies only 200/201, every row is processed, and a
run in which every create conflicts reports zero creations and zero
failures. -/
theorem create_conflict_success_equivalent (status : String → Nat)
    (rows : List (String × String)) :
    (create_reference_table_rows status rows).2 =
      (rows.filter (fun p => !(isCreated status p || isConflict status p))).map
        (fun p => p.1 ++ ": " ++ toString (status p.1)) ∧
    (create_reference_table_rows status rows).1 = rows.countP (isCreated status) ∧
    ((∀ p ∈ rows, status p.1 = 409) →
      create_reference_table_rows status rows = (0, [])) := by
  refine ⟨?_, ?_, ?_⟩
  · unfold create_reference_table_rows
    rw [create_rows_foldl]
    simp
  · unfold create_reference_table_rows
    rw [create_rows_foldl]
    simp
  · intro hconf
    unfold create_reference_table_rows
    rw [create_rows_foldl]
    have hcount : rows.countP (isCreated status) = 0 := by
      rw [List.countP_eq_zero]
      intro p hp
      simp [isCreated, hconf p hp]
    have hfilter : rows.filter
        (fun p => !(isCreated status p || isConflict status p)) = [] := by
      rw [List.filter_eq_nil_iff]
      intro p hp
      simp [isCreated, isConflict, hconf p hp]
    rw [hcount, hfilter]
    rfl

/-- Witness for C5: one created row, one conflict, one hard failure. -/
theorem create_conflict_success_equivalent_witness :
    (create_reference_table_rows
        (fun s => if s = "a" then 201 else if s = "b" then 409 else 500)
        [("a", "t"), ("b", "t"), ("c", "t")]).2 =
      ([("a", "t"), ("b", "t"), ("c", "t")].filter (fun p =>
        !(isCreated (fun s => if s = "a" then 201 else if s = "b" then 409 else 500) p ||
          isConflict (fun s => if s = "a" then 201 else if s = "b" then 409 else 500) p))).map
        (fun p => p.1 ++ ": " ++
          toString (if p.1 = "a" then 201 else if p.1 = "b" then 409 else 500)) ∧
    (create_reference_table_rows
        (fun s => if s = "a" then 201 else if s = "b" then 409 else 500)
        [("a", "t"), ("b", "t"), ("c", "t")]).1 =
      [("a", "t"), ("b", "t"), ("c", "t")].countP
        (isCreated (fun s => if s = "a" then 201 else if s = "b" then 409 else 500)) ∧
    create_reference_table_rows (fun _ => 409) [("x", "t"), ("y", "t")] = (0, []) :=
  ⟨(create_conflict_success_equivalent
      (fun s => if s = "a" then 201 else if s = "b" then 409 else 500)
      [("a", "t"), ("b", "t"), ("c", "t")]).1,
   (create_conflict_success_equivalent
      (fun s => if s = "a" then 201 else if s = "b" then 409 else 500)
      [("a", "t"), ("b", "t"), ("c", "t")]).2.1,
   (create_conflict_success_equivalent (fun _ => 409) [("x", "t"), ("y", "t")]).2.2
     (by decide)⟩

/-- Closed form of the upsert loop from an arbitrary accumulator: every
count is a per-service tally, the missing list collects team-less services
in order, and (outside dry-run) one upsert call is issued per service with a
team. -/
theorem upsertLoop_foldl (m : Mapping) (upsertOk : String → Bool) (dryRun : Bool)
    (services : List String) (st : LoopState) :
    services.foldl (upsertStep m upsertOk dryRun) st =
      { updated := st.updated + services.countP
          (fun s => decide (serviceOutcome m upsertOk dryRun s = .updated)),
        skipped := st.skipped + services.countP
          (fun s => decide (serviceOutcome m upsertOk dryRun s = .skipped)),
        failures := st.failures + services.countP
          (fun s => decide (serviceOutcome m upsertOk dryRun s = .failed)),
        missing_team := st.missing_team ++
          services.filter (fun s => serviceTeam m s = ""),
        calls := st.calls ++ (if dryRun then [] else
          (services.filter (fun s => serviceTeam m s ≠ "")).map
            (fun s => NetCall.upsert s (serviceTeam m s))) } := by
  induction services generalizing st with
  | nil => cases dryRun <;> simp
  | cons s ss ih =>
    rw [List.foldl_cons, ih]
    by_cases ht : serviceTeam m s = "" <;> cases dryRun <;>
      cases ho : upsertOk s <;>
        simp [upsertStep, serviceOutcome, ht, ho, List.countP_cons,
          List.filter_cons] <;> omega

/-- Summing the three outcome tallies over any service list gives its
length: the outcome classes partition the services. -/
theorem outcome_countP_sum (m : Mapping) (upsertOk : String → Bool) (dryRun : Bool)
    (l : List String) :
    l.countP (fun s => decide (serviceOutcome m upsertOk dryRun s = .updated)) +
    l.countP (fun s => decide (serviceOutcome m upsertOk dryRun s = .skipped)) +
    l.countP (fun s => decide (serviceOutcome m upsertOk dryRun s = .failed)) =
      l.length := by
  induction l with
  | nil => simp
  | cons s ss ih =>
    rcases hout : serviceOutcome m upsertOk dryRun s <;>
      simp [List.countP_cons, hout] <;> omega

/-- The summary and call trace of the pipeline tail, in closed form. -/
theorem runPipeline_eq (services : List String) (resolved : Mapping)
    (upsertOk : String → Bool) (dryRun : Bool) :
    runPipeline services resolved upsertOk dryRun =
      ({ found := (sortedServices services).length,
         updated := (sortedServices services).countP (fun s =>
           decide (serviceOutcome (fillMapping services resolved) upsertOk dryRun s
             = .updated)),
         skipped := (sortedServices services).countP (fun s =>
           decide (serviceOutcome (fillMapping services resolved) upsertOk dryRun s
             = .skipped)),
         failures := (sortedServices services).countP (fun s =>
           decide (serviceOutcome (fillMapping services resolved) upsertOk dryRun s
             = .failed)),
         missing_team := (sortedServices services).filter (fun s =>
           serviceTeam (fillMapping services resolved) s = "") },
       if dryRun then [] else
         (assign_dummy_teams (missingServices services resolved)).map
           (fun p => NetCall.createRow p.1 p.2) ++
         ((sortedServices services).filter (fun s =>
             serviceTeam (fillMapping services resolved) s ≠ "")).map
           (fun s => NetCall.upsert s (serviceTeam (fillMapping services resolved) s))) := by
  unfold runPipeline upsertLoop
  simp only []
  rw [upsertLoop_foldl]
  cases dryRun <;> simp

/-- C6: catalog upsert failures are isolated per item: over distinct sorted
services in a live run, every count is a tally of that service's own
outcome, the loop classifies every service (no abort), exactly one upsert
attempt is issued for each service holding a team and none for the others,
and an upsert attempt succeeds exactly on statuses 200 and 201. -/
theorem upsert_failures_isolated (m : Mapping) (upsertOk : String → Bool)
    (services : List String) (hnd : services.Nodup) :
    (upsertLoop m upsertOk false services).updated = services.countP
      (fun s => decide (serviceOutcome m upsertOk false s = .updated)) ∧
    (upsertLoop m upsertOk false services).failures = services.countP
      (fun s => decide (serviceOutcome m upsertOk false s = .failed)) ∧
    (upsertLoop m upsertOk false services).skipped = services.countP
      (fun s => decide (serviceOutcome m upsertOk false s = .skipped)) ∧
    (upsertLoop m upsertOk false services).calls =
      (services.filter (fun s => serviceTeam m s ≠ "")).map
        (fun s => NetCall.upsert s (serviceTeam m s)) ∧
    (∀ s ∈ services, serviceTeam m s ≠ "" →
      (upsertLoop m upsertOk false services).calls.count
        (NetCall.upsert s (serviceTeam m s)) = 1) ∧
    (∀ n, (upsert_service_definition n).1 = true ↔ (n = 200 ∨ n = 201)) := by
  have hcalls : (upsertLoop m upsertOk false services).calls =
      (services.filter (fun s => serviceTeam m s ≠ "")).map
        (fun s => NetCall.upsert s (serviceTeam m s)) := by
    unfold upsertLoop
    rw [upsertLoop_foldl]
    simp
  refine ⟨?_, ?_, ?_, hcalls, ?_, ?_⟩
  · unfold upsertLoop
    rw [upsertLoop_foldl]
    simp
  · unfold upsertLoop
    rw [upsertLoop_foldl]
    simp
  · unfold upsertLoop
    rw [upsertLoop_foldl]
    simp
  · intro s hs hteam
    rw [hcalls]
    apply List.count_eq_one_of_mem
    · apply List.Nodup.map
      · intro a b hab
        simpa using congrArg (fun c => match c with
          | NetCall.upsert sv _ => sv
          | NetCall.createRow sv _ => sv) hab
      · exact hnd.filter _
    · exact List.mem_map_of_mem _ (List.mem_filter.mpr ⟨hs, by simpa using hteam⟩)
  · intro n
    unfold upsert_service_definition
    by_cases h200 : n = 200
    · simp [h200]
    · by_cases h201 : n = 201 <;> simp [h200, h201]

/-- Witness for C6: service "x" fails its upsert while "a" succeeds and "z"
is skipped. -/
theorem upsert_failures_isolated_witness :
    (["a", "x", "z"] : List String).Nodup ∧
    ((upsertLoop (fun s => if s = "a" then some "t1" else if s = "x" then some "t2" else none)
        (fun s => s ≠ "x") false ["a", "x", "z"]).updated =
      (["a", "x", "z"] : List String).countP (fun s => decide (serviceOutcome
        (fun s => if s = "a" then some "t1" else if s = "x" then some "t2" else none)
        (fun s => s ≠ "x") false s = .updated)) ∧
    (upsertLoop (fun s => if s = "a" then some "t1" else if s = "x" then some "t2" else none)
        (fun s => s ≠ "x") false ["a", "x", "z"]).failures =
      (["a", "x", "z"] : List String).countP (fun s => decide (serviceOutcome
        (fun s => if s = "a" then some "t1" else if s = "x" then some "t2" else none)
        (fun s => s ≠ "x") false s = .failed)) ∧
    (upsertLoop (fun s => if s = "a" then some "t1" else if s = "x" then some "t2" else none)
        (fun s => s ≠ "x") false ["a", "x", "z"]).skipped =
      (["a", "x", "z"] : List String).countP (fun s => decide (serviceOutcome
        (fun s => if s = "a" then some "t1" else if s = "x" then some "t2" else none)
        (fun s => s ≠ "x") false s = .skipped)) ∧
    (upsertLoop (fun s => if s = "a" then some "t1" else if s = "x" then some "t2" else none)
        (fun s => s ≠ "x") false ["a", "x", "z"]).calls =
      ((["a", "x", "z"] : List String).filter (fun s => serviceTeam
        (fun s => if s = "a" then some "t1" else if s = "x" then some "t2" else none) s ≠ "")).map
        (fun s => NetCall.upsert s (serviceTeam
          (fun s => if s = "a" then some "t1" else if s = "x" then some "t2" else none) s)) ∧
    (∀ s ∈ (["a", "x", "z"] : List String), serviceTeam
        (fun s => if s = "a" then some "t1" else if s = "x" then some "t2" else none) s ≠ "" →
      (upsertLoop (fun s => if s = "a" then some "t1" else if s = "x" then some "t2" else none)
        (fun s => s ≠ "x") false ["a", "x", "z"]).calls.count
        (NetCall.upsert s (serviceTeam
          (fun s => if s = "a" then some "t1" else if s = "x" then some "t2" else none) s)) = 1) ∧
    (∀ n, (upsert_service_definition n).1 = true ↔ (n = 200 ∨ n = 201))) :=
  ⟨by decide, upsert_failures_isolated
    (fun s => if s = "a" then some "t1" else if s = "x" then some "t2" else none)
    (fun s => s ≠ "x") ["a", "x", "z"] (by decide)⟩

/-- C9: a service is counted skipped exactly when its team after the gap
filling step strips to nothing, the outcome classes are mutually exclusive,
and updated, skipped and failures together partition the found count. -/
theorem skipped_partition (services : List String) (resolved : Mapping)
    (upsertOk : String → Bool) (dryRun : Bool) :
    (runPipeline services resolved upsertOk dryRun).1.skipped =
      (sortedServices services).countP (fun s =>
        decide (serviceTeam (fillMapping services resolved) s = "")) ∧
    (∀ s, serviceOutcome (fillMapping services resolved) upsertOk dryRun s = .skipped ↔
      serviceTeam (fillMapping services resolved) s = "") ∧
    (∀ s, serviceOutcome (fillMapping services resolved) upsertOk dryRun s = .skipped →
      serviceOutcome (fillMapping services resolved) upsertOk dryRun s ≠ .updated ∧
      serviceOutcome (fillMapping services resolved) upsertOk dryRun s ≠ .failed) ∧
    (runPipeline services resolved upsertOk dryRun).1.updated +
      (runPipeline services resolved upsertOk dryRun).1.skipped +
      (runPipeline services resolved upsertOk dryRun).1.failures =
      (runPipeline services resolved upsertOk dryRun).1.found := by
  have hiff : ∀ s, serviceOutcome (fillMapping services resolved) upsertOk dryRun s
      = .skipped ↔ serviceTeam (fillMapping services resolved) s = "" := by
    intro s
    unfold serviceOutcome
    split_ifs with h1 h2 h3 <;> simp [h1]
  refine ⟨?_, hiff, ?_, ?_⟩
  · rw [runPipeline_eq]
    simp only []
    apply List.countP_congr
    intro s _
    simpa using hiff s
  · intro s h
    rw [h]
    exact ⟨by simp, by simp⟩
  · rw [runPipeline_eq]
    exact outcome_countP_sum _ _ _ _

/-- Witness for C9 at a concrete run with one skipped and one updated
service. -/
theorem skipped_partition_witness :
    (runPipeline ["b", "a"] (fun s => if s = "a" then some "t" else none)
        (fun _ => true) false).1.skipped =
      (sortedServices ["b", "a"]).countP (fun s =>
        decide (serviceTeam (fillMapping ["b", "a"]
          (fun s => if s = "a" then some "t" else none)) s = "")) ∧
    (serviceOutcome (fillMapping ["b", "a"] (fun s => if s = "a" then some "t" else none))
        (fun _ => true) false "zz" = .skipped ↔
      serviceTeam (fillMapping ["b", "a"]
        (fun s => if s = "a" then some "t" else none)) "zz" = "") ∧
    (runPipeline ["b", "a"] (fun s => if s = "a" then some "t" else none)
        (fun _ => true) false).1.updated +
      (runPipeline ["b", "a"] (fun s => if s = "a" then some "t" else none)
        (fun _ => true) false).1.skipped +
      (runPipeline ["b", "a"] (fun s => if s = "a" then some "t" else none)
        (fun _ => true) false).1.failures =
      (runPipeline ["b", "a"] (fun s => if s = "a" then some "t" else none)
        (fun _ => true) false).1.found :=
  ⟨(skipped_partition ["b", "a"] (fun s => if s = "a" then some "t" else none)
      (fun _ => true) false).1,
   (skipped_partition ["b", "a"] (fun s => if s = "a" then some "t" else none)
      (fun _ => true) false).2.1 "zz",
   (skipped_partition ["b", "a"] (fun s => if s = "a" then some "t" else none)
      (fun _ => true) false).2.2.2⟩

/-- C8 counterexample: with one discovered service mapped to a team whose
live upsert fails, the dry-run summary (updated 1, failures 0) differs from
the live summary (updated 0, failures 1). -/
theorem dry_run_counts_differ_from_live :
    (runPipeline ["a"] (fun _ => some "t") (fun _ => false) true).1 ≠
      (runPipeline ["a"] (fun _ => some "t") (fun _ => false) false).1 := by
  decide

/-- C8 (amended): in dry-run mode the pipeline issues no create-row and no
catalog-upsert call, and the summary's found, skipped and missing-team data
equal the live run's from the same starting mapping state; the updated and
failed counts equal the live values exactly under the optimistic projection
that every attempted live upsert succeeds. -/
theorem dry_run_no_writes_optimistic_counts (services : List String)
    (resolved : Mapping) (upsertOkDry upsertOkLive : String → Bool) :
    (runPipeline services resolved upsertOkDry true).2 = [] ∧
    (runPipeline services resolved upsertOkDry true).1.found =
      (runPipeline services resolved upsertOkLive false).1.found ∧
    (runPipeline services resolved upsertOkDry true).1.skipped =
      (runPipeline services resolved upsertOkLive false).1.skipped ∧
    (runPipeline services resolved upsertOkDry true).1.missing_team =
      (runPipeline services resolved upsertOkLive false).1.missing_team ∧
    ((∀ s, upsertOkLive s = true) →
      (runPipeline services resolved upsertOkDry true).1 =
        (runPipeline services resolved upsertOkLive false).1) := by
  have hsk : ∀ (uOk : String → Bool) (dry : Bool) (s : String),
      (serviceOutcome (fillMapping services resolved) uOk dry s = .skipped) =
        (serviceTeam (fillMapping services resolved) s = "") := by
    intro uOk dry s
    unfold serviceOutcome
    split_ifs with h1 h2 h3 <;> simp [h1]
  rw [runPipeline_eq, runPipeline_eq]
  refine ⟨by simp, by simp, ?_, by simp, ?_⟩
  · simp only []
    apply List.countP_congr
    intro s _
    simp [hsk]
  · intro hok
    have hsame : ∀ s, serviceOutcome (fillMapping services resolved) upsertOkDry true s =
        serviceOutcome (fillMapping services resolved) upsertOkLive false s := by
      intro s
      unfold serviceOutcome
      by_cases ht : serviceTeam (fillMapping services resolved) s = "" <;>
        simp [ht, hok s]
    simp only [Summary.mk.injEq]
    refine ⟨trivial, ?_, ?_, ?_, trivial⟩ <;>
      · apply List.countP_congr
        intro s _
        simp [hsame s]

/-- Witness for C8 (amended) at a concrete input with an all-success live
sink. -/
theorem dry_run_no_writes_optimistic_counts_witness :
    (runPipeline ["b", "a"] (fun s => if s = "a" then some "t" else none)
        (fun _ => true) true).2 = [] ∧
    (runPipeline ["b", "a"] (fun s => if s = "a" then some "t" else none)
        (fun _ => true) true).1.skipped =
      (runPipeline ["b", "a"] (fun s => if s = "a" then some "t" else none)
        (fun _ => true) false).1.skipped ∧
    (runPipeline ["b", "a"] (fun s => if s = "a" then some "t" else none)
        (fun _ => true) true).1 =
      (runPipeline ["b", "a"] (fun s => if s = "a" then some "t" else none)
        (fun _ => true) false).1 :=
  ⟨(dry_run_no_writes_optimistic_counts ["b", "a"]
      (fun s => if s = "a" then some "t" else none) (fun _ => true) (fun _ => true)).1,
   (dry_run_no_writes_optimistic_counts ["b", "a"]
      (fun s => if s = "a" then some "t" else none) (fun _ => true) (fun _ => true)).2.2.1,
   (dry_run_no_writes_optimistic_counts ["b", "a"]
      (fun s => if s = "a" then some "t" else none) (fun _ => true) (fun _ => true)).2.2.2.2
     (fun _ => rfl)⟩

/-- Membership in the sorted deduplicated non-empty identifier listing. -/
theorem mem_sortedServiceSet (l : List String) (s : String) :
    s ∈ sortedServiceSet l ↔ s ∈ l ∧ s ≠ "" := by
  unfold sortedServiceSet pySorted
  rw [(List.perm_insertionSort strLe _).mem_iff]
  simp [List.mem_dedup, List.mem_filter]

/-- Membership in the sorted service set of `main`. -/
theorem mem_sortedServices (services : List String) (s : String) :
    s ∈ sortedServices services ↔ s ∈ services := by
  unfold sortedServices pySorted
  rw [(List.perm_insertionSort strLe _).mem_iff]
  simp [List.mem_dedup]

/-- Every pair produced by the Gap Filler is keyed by one of its inputs. -/
theorem mem_assign_dummy_teams (l : List String) (p : String × String)
    (hp : p ∈ assign_dummy_teams l) : p.1 ∈ l ∧ p.1 ≠ "" := by
  unfold assign_dummy_teams at hp
  rcases List.mem_map.mp hp with ⟨q, hq, rfl⟩
  have h2 : q.2 ∈ sortedServiceSet l := by
    rcases List.mem_enumFrom hq with ⟨h5, h6, h7⟩
    simp only [Nat.sub_zero] at h7
    rw [h7]
    exact List.getElem_mem _
  exact (mem_sortedServiceSet l q.2).mp h2

/-- The gap-filled mapping agrees with the resolved mapping on every
service already present in it. -/
theorem fillMapping_not_missing (services : List String) (resolved : Mapping)
    (svc : String) (h : (resolved svc).isSome) :
    fillMapping services resolved svc = resolved svc := by
  unfold fillMapping updateMapping
  cases hf : List.find? (fun p => p.1 = svc)
      (assign_dummy_teams (missingServices services resolved)) with
  | none => rfl
  | some p =>
    exfalso
    have hp1 : p.1 = svc := by simpa using List.find?_some hf
    have hpmem := List.mem_of_find?_eq_some hf
    have hmemf := (mem_assign_dummy_teams _ _ hpmem).1
    rw [hp1] at hmemf
    unfold missingServices at hmemf
    rw [List.mem_filter] at hmemf
    have hnone : resolved svc = none := by
      simpa [Option.isNone_iff_eq_none] using hmemf.2
    rw [hnone] at h
    simp at h

/-- C10: a reference-table row whose service value is non-empty but whose
team value strips to nothing is recorded in the mapping with an empty team;
being present in the mapping the service is excluded from gap filling,
classified and counted as skipped (listed among the missing-team services),
and no upsert call is ever issued for it. -/
theorem empty_team_recorded_and_skipped (it : RowItem) (m : Mapping)
    (service_col team_col : String) (svc : String)
    (hsvc : pyStrip ((bagGet (extract_row_values it) service_col).getD "") = svc)
    (hne : svc ≠ "")
    (hteam : pyStrip ((bagGet (extract_row_values it) team_col).getD "") = "")
    (services : List String) (resolved : Mapping) (upsertOk : String → Bool)
    (hres : resolved svc = some "") (hmem : svc ∈ services) :
    applyItem service_col team_col m it = mUpdate m svc "" ∧
    svc ∉ missingServices services resolved ∧
    serviceOutcome (fillMapping services resolved) upsertOk false svc = .skipped ∧
    svc ∈ (runPipeline services resolved upsertOk false).1.missing_team ∧
    ∀ t, NetCall.upsert svc t ∉ (runPipeline services resolved upsertOk false).2 := by
  have hfill : fillMapping services resolved svc = some "" := by
    rw [fillMapping_not_missing services resolved svc (by simp [hres])]
    exact hres
  have hteamfill : serviceTeam (fillMapping services resolved) svc = "" := by
    unfold serviceTeam
    rw [hfill]
    rfl
  refine ⟨?_, ?_, ?_, ?_, ?_⟩
  · unfold applyItem
    simp only []
    rw [hsvc, hteam]
    simp [hne]
  · unfold missingServices
    rw [List.mem_filter]
    simp [hres]
  · unfold serviceOutcome
    simp [hteamfill]
  · rw [runPipeline_eq]
    simp only []
    rw [List.mem_filter]
    refine ⟨(mem_sortedServices services svc).mpr hmem, by simp [hteamfill]⟩
  · intro t hcall
    rw [runPipeline_eq] at hcall
    rw [if_neg (by decide)] at hcall
    rw [List.mem_append] at hcall
    rcases hcall with hcall | hcall
    · rcases List.mem_map.mp hcall with ⟨q, _, hq⟩
      exact NetCall.noConfusion hq
    · rcases List.mem_map.mp hcall with ⟨s', hs', hq⟩
      have hs'svc : s' = svc := by
        injection hq with h1 h2
      rw [hs'svc] at hs'
      rw [List.mem_filter] at hs'
      have := hs'.2
      simp [hteamfill] at this

/-- Witness for C10 at a concrete row with a blank team value. -/
theorem empty_team_recorded_and_skipped_witness :
    pyStrip ((bagGet (extract_row_values
      ⟨some [("service", "web"), ("team", " ")], none, none, []⟩) "service").getD "")
      = "web" ∧
    ("web" : String) ≠ "" ∧
    pyStrip ((bagGet (extract_row_values
      ⟨some [("service", "web"), ("team", " ")], none, none, []⟩) "team").getD "")
      = "" ∧
    (fun s => if s = "web" then some "" else none) "web" = some "" ∧
    "web" ∈ (["web"] : List String) ∧
    (applyItem "service" "team" emptyMapping
        ⟨some [("service", "web"), ("team", " ")], none, none, []⟩ =
      mUpdate emptyMapping "web" "" ∧
    "web" ∉ missingServices ["web"] (fun s => if s = "web" then some "" else none) ∧
    serviceOutcome (fillMapping ["web"] (fun s => if s = "web" then some "" else none))
      (fun _ => true) false "web" = .skipped ∧
    "web" ∈ (runPipeline ["web"] (fun s => if s = "web" then some "" else none)
      (fun _ => true) false).1.missing_team ∧
    ∀ t, NetCall.upsert "web" t ∉ (runPipeline ["web"]
      (fun s => if s = "web" then some "" else none) (fun _ => true) false).2) :=
  ⟨by decide, by decide, by decide, rfl, by decide,
   empty_team_recorded_and_skipped
     ⟨some [("service", "web"), ("team", " ")], none, none, []⟩ emptyMapping
     "service" "team" "web" (by decide) (by decide) (by decide)
     ["web"] (fun s => if s = "web" then some "" else none) (fun _ => true)
     rfl (by decide)⟩

/-- C7 counterexample: with `max_pages = None` and a source that returns a
non-empty next cursor on every page, the paging loop never terminates. -/
theorem pagination_may_not_terminate :
    ¬ fetchTerminates cursorForeverPages none := by
  rintro ⟨fuel, hf⟩
  suffices h : ∀ (fuel i : Nat) (cursor : Option String) (acc : List String)
      (reqs : List (Option String)),
      fetchFrom cursorForeverPages none fuel i cursor acc reqs = none by
    rw [list_services_from_events, h] at hf
    simp at hf
  intro fuel
  induction fuel with
  | zero => intro i c a r; rfl
  | succ n ih =>
    intro i c a r
    simp [fetchFrom, reachedMax, metaAfter, truthy, cursorForeverPages, ih]

/-- A bounded page budget forces the loop to finish within it. -/
theorem fetchFrom_isSome_of_max (pages : Nat → EventsResponse) (m : Nat) :
    ∀ (fuel i : Nat) (c : Option String) (a : List String)
      (r : List (Option String)), m < fuel + i → 0 < fuel →
      (fetchFrom pages (some m) fuel i c a r).isSome := by
  intro fuel
  induction fuel with
  | zero =>
    intro i c a r _ h0
    exact absurd h0 (by simp)
  | succ n ih =>
    intro i c a r hm _
    rw [fetchFrom]
    by_cases hmax : reachedMax (some m) (i + 1) = true
    · simp [hmax]
    · have hile : i + 1 ≤ m := by
        simpa [reachedMax] using hmax
      by_cases hc : truthy (metaAfter (pages i)) = true
      · simp only [hmax, hc, if_false, if_true, Bool.false_eq_true]
        exact ih (i + 1) _ _ _ (by omega) (by omega)
      · simp [hmax, hc]

/-- A page whose next cursor is falsy forces the loop to finish within the
distance to it. -/
theorem fetchFrom_isSome_of_stop (pages : Nat → EventsResponse)
    (mp : Option Nat) :
    ∀ (j i : Nat) (c : Option String) (a : List String)
      (r : List (Option String)), truthy (metaAfter (pages (i + j))) = false →
      (fetchFrom pages mp (j + 1) i c a r).isSome := by
  intro j
  induction j with
  | zero =>
    intro i c a r hstop
    rw [fetchFrom]
    by_cases hmax : reachedMax mp (i + 1) = true
    · simp [hmax]
    · simp only [Nat.add_zero] at hstop
      simp [hmax, hstop]
  | succ n ih =>
    intro i c a r hstop
    rw [fetchFrom]
    by_cases hmax : reachedMax mp (i + 1) = true
    · simp [hmax]
    · by_cases hc : truthy (metaAfter (pages i)) = true
      · simp only [hmax, hc, if_true, Bool.false_eq_true, if_false]
        exact ih (i + 1) _ _ _ (by rw [show i + 1 + n = i + (n + 1) by omega]; exact hstop)
      · simp [hmax, hc]

/-- The request trace only ever grows: a finished loop's trace extends the
trace accumulated so far. -/
theorem fetchFrom_reqs_extend (pages : Nat → EventsResponse) (mp : Option Nat) :
    ∀ (fuel i : Nat) (c : Option String) (a : List String)
      (r : List (Option String)) (res : List String × List (Option String)),
      fetchFrom pages mp fuel i c a r = some res →
      ∃ suffix, res.2 = r ++ suffix := by
  intro fuel
  induction fuel with
  | zero => intro i c a r res h; exact absurd h (by rw [fetchFrom]; simp)
  | succ n ih =>
    intro i c a r res h
    rw [fetchFrom] at h
    by_cases hmax : reachedMax mp (i + 1) = true
    · rw [if_pos hmax] at h
      exact ⟨[], by simpa using (congrArg Prod.snd (Option.some.inj h)).symm⟩
    · rw [if_neg hmax] at h
      simp only [] at h
      by_cases hc : truthy (metaAfter (pages i)) = true
      · rw [if_pos hc] at h
        rcases ih _ _ _ _ _ h with ⟨suffix, hsuf⟩
        exact ⟨(if truthy c then c else none) :: suffix, by
          rw [hsuf, List.append_assoc]; rfl⟩
      · rw [if_neg hc] at h
        exact ⟨[if truthy c then c else none], by
          simpa using (congrArg Prod.snd (Option.some.inj h)).symm⟩

/-- C7 (amended): for every source the paging loop terminates whenever
`max_pages` is set (an early stop, not an error), and terminates for any
`max_pages` setting whenever some page's next cursor is absent or empty —
in particular when the paging metadata fails to parse, which yields no
cursor; each iteration issues one request, and a completed run's first
request omits the cursor. -/
theorem pagination_terminates_conditions (pages : Nat → EventsResponse)
    (m k : Nat) (mp : Option Nat) :
    fetchTerminates pages (some m) ∧
    (truthy (metaAfter (pages k)) = false → fetchTerminates pages mp) ∧
    (∀ d, metaAfter ⟨d, none⟩ = none) ∧
    (∀ fuel acc reqs, list_services_from_events pages mp fuel = some (acc, reqs) →
      reqs = [] ∨ reqs.head? = some none) := by
  refine ⟨⟨m + 1, ?_⟩, fun hstop => ⟨k + 1, ?_⟩, fun d => rfl, ?_⟩
  · exact fetchFrom_isSome_of_max pages m (m + 1) 0 none [] [] (by omega) (by omega)
  · exact fetchFrom_isSome_of_stop pages mp k 0 none [] [] (by simpa using hstop)
  · intro fuel acc reqs h
    rw [list_services_from_events] at h
    cases fuel with
    | zero => exact absurd h (by rw [fetchFrom]; simp)
    | succ n =>
      rw [fetchFrom] at h
      by_cases hmax : reachedMax mp 1 = true
      · rw [if_pos hmax] at h
        left
        exact (congrArg Prod.snd (Option.some.inj h)).symm
      · rw [if_neg hmax] at h
        simp only [] at h
        by_cases hc : truthy (metaAfter (pages 0)) = true
        · rw [if_pos hc] at h
          rcases fetchFrom_reqs_extend pages mp _ _ _ _ _ _ h with ⟨suffix, hsuf⟩
          right
          simp only [truthy] at hsuf
          rw [hsuf]
          rfl
        · rw [if_neg hc] at h
          right
          have := (congrArg Prod.snd (Option.some.inj h)).symm
          simp only [truthy] at this
          rw [this]
          rfl

/-- Witness for C7 (amended): the maxPages conjunct applied to the
always-cursor source (where only the page bound can stop the loop), and the
cursor-stop conjunct discharged against a source whose first page carries
no paging metadata. -/
theorem pagination_terminates_conditions_witness :
    fetchTerminates cursorForeverPages (some 2) ∧
    truthy (metaAfter ((fun _ => ⟨[], none⟩ : Nat → EventsResponse) 0)) = false ∧
    (fetchTerminates (fun _ => ⟨[], none⟩) (some 2) ∧
    fetchTerminates (fun _ => ⟨[], none⟩) none ∧
    (∀ d, metaAfter ⟨d, none⟩ = none) ∧
    (∀ fuel acc reqs, list_services_from_events (fun _ => ⟨[], none⟩) none fuel =
        some (acc, reqs) →
      reqs = [] ∨ reqs.head? = some none)) :=
  ⟨(pagination_terminates_conditions cursorForeverPages 2 0 none).1, rfl,
   (pagination_terminates_conditions (fun _ => ⟨[], none⟩) 2 0 none).1,
   (pagination_terminates_conditions (fun _ => ⟨[], none⟩) 2 0 none).2.1 rfl,
   (pagination_terminates_conditions (fun _ => ⟨[], none⟩) 2 0 none).2.2.1,
   (pagination_terminates_conditions (fun _ => ⟨[], none⟩) 2 0 none).2.2.2⟩

end SyncServices
